import Mathlib

/-!
Shallow embedding of the YOLO face-detection microservice
(`ml-service/main.py`).

The service's own logic is pure post-processing around two external
calls, which we abstract as function parameters:

* `parse` — `base64.b64decode` followed by `PIL.Image.open` (either may
  throw; on success it yields an image, here reduced to its metadata:
  width, height, colour mode);
* `infer` — the YOLO model call, yielding raw detections (class id,
  box coordinates, confidence) or throwing.

Python strings are modelled as `List Char`; numeric values (pixel
coordinates, confidences) as `ℚ`; Python exceptions as `PyExc`,
distinguishing `ValueError` from every other exception class because
the handler's `except` clauses discriminate on exactly that.
`processing_time_ms` (wall-clock time) is left out of the embedding.
-/

/-- A decoded image, reduced to the metadata the service reads:
`image.size = (width, height)` and `image.mode`. -/
structure RawImage where
  width : ℕ
  height : ℕ
  mode : String
deriving DecidableEq

/-- One raw detection as produced by the model: class id (`box.cls[0]`),
box corners (`box.xyxy[0]`) and confidence (`box.conf[0]`). -/
structure RawBox where
  cls : ℤ
  x1 : ℚ
  y1 : ℚ
  x2 : ℚ
  y2 : ℚ
  conf : ℚ
deriving DecidableEq

/-- A bounding box as appended to the `boxes` list
(`box.xyxy[0].tolist()`, four coordinates). -/
structure Box where
  x1 : ℚ
  y1 : ℚ
  x2 : ℚ
  y2 : ℚ
deriving DecidableEq

/-- A Python exception, split by the only distinction the handler makes:
`ValueError` versus any other exception class. -/
inductive PyExc where
  | valueError (msg : String)
  | other (msg : String)
deriving DecidableEq

/-- Response model `AnalyzeResponse` (without `processing_time_ms`,
which is wall-clock time). -/
structure AnalyzeResponse where
  success : Bool
  face_count : ℕ
  confidence : ℚ
  looking_away : Bool
  bounding_boxes : Option (List Box)
  error : Option String
deriving DecidableEq

/-- Outcome of a `/analyze` request: an HTTP 200 with a response body,
or an `HTTPException` with a status code and a detail string. -/
inductive AnalyzeResult where
  | ok (resp : AnalyzeResponse)
  | httpError (status : ℕ) (detail : String)
deriving DecidableEq

/-- Health check response model `HealthResponse`. -/
structure HealthResponse where
  status : String
  model_loaded : Bool
  model_path : String
  model_type : String
  confidence_threshold : ℚ
deriving DecidableEq

/-- Python's `s.split(",")` on a character list: splits at every comma,
keeping empty pieces, so the result is always nonempty. -/
def splitComma : List Char → List (List Char)
  | [] => [[]]
  | c :: rest =>
    match splitComma rest with
    | [] => [[]]
    | piece :: pieces =>
      if c = ',' then [] :: piece :: pieces else (c :: piece) :: pieces

/-- The data-URL stripping step of `decode_base64_image`:
`if "," in base64_string: base64_string = base64_string.split(",")[1]`. -/
def stripDataUrl (s : List Char) : List Char :=
  if ',' ∈ s then (splitComma s).getD 1 [] else s

/-- Step `image.convert("RGB")`, taken when `image.mode != "RGB"`: the
mode changes, the pixel dimensions do not. -/
def toRGB (img : RawImage) : RawImage :=
  if img.mode ≠ "RGB" then { img with mode := "RGB" } else img

/-- The resize step of `decode_base64_image`: when the longer side
exceeds `maxSize` (`MAX_IMAGE_SIZE`), both sides are scaled by
`ratio = maxSize / max(width, height)` and truncated with `int(...)`
(truncation toward zero, i.e. floor on nonnegative values). -/
def resizeIfLarge (maxSize : ℕ) (img : RawImage) : RawImage :=
  if max img.width img.height > maxSize then
    let r : ℚ := (maxSize : ℚ) / (max img.width img.height : ℕ)
    { img with
      width := (⌊(img.width : ℚ) * r⌋).toNat,
      height := (⌊(img.height : ℚ) * r⌋).toNat }
  else img

/-- Embedding of `decode_base64_image`: strip an optional data-URL head, run the
external decode/parse pipeline, convert to RGB, downsize; any exception
from the pipeline is re-raised as
`ValueError("Invalid image data: " + str(e))`. -/
def decode_base64_image (parse : List Char → Except String RawImage)
    (maxSize : ℕ) (s : List Char) : Except PyExc RawImage :=
  let stripped := stripDataUrl s
  match parse stripped with
  | .error e => .error (.valueError ("Invalid image data: " ++ e))
  | .ok img => .ok (resizeIfLarge maxSize (toRGB img))

/-- Embedding of `estimate_looking_away`: false on an empty detection list; otherwise
compare the first box's horizontal center against the image's horizontal
center and flag when the relative deviation strictly exceeds 0.4. -/
def estimate_looking_away (boxes : List Box) (image_width : ℚ) : Bool :=
  match boxes with
  | [] => false
  | main_box :: _ =>
    let face_center_x := (main_box.x1 + main_box.x2) / 2
    let image_center_x := image_width / 2
    let deviation := |face_center_x - image_center_x| / image_center_x
    decide (deviation > 0.4)

/-- The detection-extraction loop of `analyze_face`: keep only class-0
("person") detections, collecting their boxes and confidences. -/
def extractDetections (raws : List RawBox) : List Box × List ℚ :=
  let kept := raws.filter (fun r => r.cls = 0)
  (kept.map (fun r => ⟨r.x1, r.y1, r.x2, r.y2⟩), kept.map (fun r => r.conf))

/-- Python's `max` on a nonempty list (the empty case is never reached:
the caller guards with `if confidences`). -/
def pyMax : List ℚ → ℚ
  | [] => 0
  | x :: xs => xs.foldl max x

/-- The mock response returned when the model is not loaded. -/
def mockResponse : AnalyzeResponse :=
  { success := true, face_count := 1, confidence := 0.95,
    looking_away := false, bounding_boxes := none,
    error := some "Model not loaded - mock response" }

/-- Embedding of `analyze_face`. Here `modelLoaded` models `yolo_model is None`;
`parse` the base64/PIL pipeline; `infer` the YOLO call on the decoded
image. The `try` block's `except ValueError` maps to 400 and
`except Exception` to 500, discriminating on the exception class
wherever it was raised. -/
def analyze_face (modelLoaded : Bool)
    (parse : List Char → Except String RawImage)
    (infer : RawImage → Except PyExc (List RawBox))
    (maxSize : ℕ) (imageB64 : List Char) : AnalyzeResult :=
  match modelLoaded with
  | false => .ok mockResponse
  | true =>
    match decode_base64_image parse maxSize imageB64 with
    | .error (.valueError m) => .httpError 400 m
    | .error (.other m) => .httpError 500 m
    | .ok image =>
      match infer image with
      | .error (.valueError m) => .httpError 400 m
      | .error (.other m) => .httpError 500 m
      | .ok results =>
        let extracted := extractDetections results
        let boxes := extracted.1
        let confidences := extracted.2
        let face_count := boxes.length
        let confidence := if confidences.isEmpty then 0 else pyMax confidences
        let looking_away :=
          if face_count = 1 then estimate_looking_away boxes (image.width : ℚ)
          else false
        .ok { success := true, face_count := face_count,
              confidence := confidence, looking_away := looking_away,
              bounding_boxes := some boxes, error := none }

/-- Embedding of `health_check`: status string and `model_loaded` flag derived from
the model handle, plus the configured path, a fixed type string, and the
configured threshold. -/
def health_check (modelLoaded : Bool) (modelPath : String)
    (threshold : ℚ) : HealthResponse :=
  { status := if modelLoaded then "healthy" else "degraded",
    model_loaded := modelLoaded,
    model_path := modelPath,
    model_type := "yolov8-face",
    confidence_threshold := threshold }

/-! ## Theorems -/

/-- C4: when the model failed to initialize, every `/analyze` request —
whatever the image field and whatever the decode or inference pipeline
would do with it — returns HTTP 200 with the fixed mock payload:
`success=true`, `face_count=1`, `confidence=0.95`, `looking_away=false`,
and an explanatory error string. -/
theorem analyze_model_unavailable_returns_mock
    (parse : List Char → Except String RawImage)
    (infer : RawImage → Except PyExc (List RawBox))
    (maxSize : ℕ) (imageB64 : List Char) :
    analyze_face false parse infer maxSize imageB64 =
      .ok { success := true, face_count := 1, confidence := 0.95,
            looking_away := false, bounding_boxes := none,
            error := some "Model not loaded - mock response" } := rfl

/-- C9: `/health` reports `model_loaded = false` with status `degraded`
exactly when the model failed to initialize, `model_loaded = true` with
status `healthy` when it is loaded, and always carries the configured
model path and confidence threshold. -/
theorem health_check_reports_model_state
    (ml : Bool) (modelPath : String) (threshold : ℚ) :
    (health_check ml modelPath threshold).model_loaded = ml
    ∧ ((health_check ml modelPath threshold).status = "degraded" ↔ ml = false)
    ∧ ((health_check ml modelPath threshold).status = "healthy" ↔ ml = true)
    ∧ (health_check ml modelPath threshold).model_path = modelPath
    ∧ (health_check ml modelPath threshold).confidence_threshold = threshold := by
  cases ml <;> simp [health_check]

/-- C10: every body that `/analyze` actually returns (an HTTP 200
outcome) has `success = true`; both error paths surface as HTTP error
statuses, never as a body with `success = false`. -/
theorem analyze_ok_success_true
    (ml : Bool) (parse : List Char → Except String RawImage)
    (infer : RawImage → Except PyExc (List RawBox))
    (maxSize : ℕ) (imageB64 : List Char) (resp : AnalyzeResponse)
    (h : analyze_face ml parse infer maxSize imageB64 = .ok resp) :
    resp.success = true := by
  cases ml with
  | false =>
    simp only [analyze_face] at h
    cases h
    rfl
  | true =>
    rcases hd : decode_base64_image parse maxSize imageB64 with e | image
    · rcases e with m | m <;> simp [analyze_face, hd] at h
    · rcases hi : infer image with e | results
      · rcases e with m | m <;> simp [analyze_face, hd, hi] at h
      · simp only [analyze_face, hd, hi] at h
        injection h with h'
        subst h'
        rfl

/-- Closed witness for C10 at a concrete input: a loaded model, a
trivially succeeding decode pipeline and an inference returning no
detections. -/
theorem analyze_ok_success_true_witness :
    ({ success := true, face_count := 0, confidence := 0,
       looking_away := false, bounding_boxes := some [],
       error := none } : AnalyzeResponse).success = true :=
  analyze_ok_success_true true (fun _ => .ok ⟨100, 80, "RGB"⟩)
    (fun _ => .ok []) 1280 ['A'] _ rfl

/-- C2: whenever the returned body's detection count is not exactly 1
(zero or several detections), `looking_away` is false, whatever the box
geometry. -/
theorem analyze_not_one_face_not_looking_away
    (ml : Bool) (parse : List Char → Except String RawImage)
    (infer : RawImage → Except PyExc (List RawBox))
    (maxSize : ℕ) (imageB64 : List Char) (resp : AnalyzeResponse)
    (h : analyze_face ml parse infer maxSize imageB64 = .ok resp)
    (hc : resp.face_count ≠ 1) :
    resp.looking_away = false := by
  cases ml with
  | false =>
    simp only [analyze_face] at h
    cases h
    exact absurd rfl hc
  | true =>
    rcases hd : decode_base64_image parse maxSize imageB64 with e | image
    · rcases e with m | m <;> simp [analyze_face, hd] at h
    · rcases hi : infer image with e | results
      · rcases e with m | m <;> simp [analyze_face, hd, hi] at h
      · simp only [analyze_face, hd, hi] at h
        injection h with h'
        subst h'
        simp only [AnalyzeResponse.face_count] at hc
        simp [hc]

/-- Closed witness for C2 at a concrete input: an inference returning
zero detections. -/
theorem analyze_not_one_face_not_looking_away_witness :
    ({ success := true, face_count := 0, confidence := 0,
       looking_away := false, bounding_boxes := some [],
       error := none } : AnalyzeResponse).looking_away = false :=
  analyze_not_one_face_not_looking_away true (fun _ => .ok ⟨100, 80, "RGB"⟩)
    (fun _ => .ok []) 1280 ['A'] _ rfl (by decide)

/-- The result of `List.foldl max` is at least its seed. -/
theorem foldl_max_seed_le (xs : List ℚ) (a : ℚ) : a ≤ xs.foldl max a := by
  induction xs generalizing a with
  | nil => exact le_refl a
  | cons x xs ih => exact le_trans (le_max_left a x) (ih (max a x))

/-- The result of `List.foldl max` is the seed or an element of the
list. -/
theorem foldl_max_mem (xs : List ℚ) (a : ℚ) :
    xs.foldl max a = a ∨ xs.foldl max a ∈ xs := by
  induction xs generalizing a with
  | nil => exact Or.inl rfl
  | cons x xs ih =>
    rcases ih (max a x) with h | h
    · rcases max_choice a x with hm | hm
      · exact Or.inl (by rw [List.foldl_cons, h, hm])
      · exact Or.inr (by rw [List.foldl_cons, h, hm]; exact List.mem_cons_self x xs)
    · exact Or.inr (List.mem_cons_of_mem x h)

/-- Every element of the list is bounded by `List.foldl max`. -/
theorem mem_le_foldl_max (xs : List ℚ) (a c : ℚ) (hc : c ∈ xs) :
    c ≤ xs.foldl max a := by
  induction xs generalizing a with
  | nil => cases hc
  | cons x xs ih =>
    rcases List.mem_cons.mp hc with rfl | h
    · exact le_trans (le_max_right a c) (foldl_max_seed_le xs (max a c))
    · exact ih (max a x) h

/-- The value `pyMax l` of a nonempty list `l` is an element of it. -/
theorem pyMax_mem (l : List ℚ) (h : l ≠ []) : pyMax l ∈ l := by
  cases l with
  | nil => exact absurd rfl h
  | cons x xs =>
    show List.foldl max x xs ∈ x :: xs
    rcases foldl_max_mem xs x with hm | hm
    · rw [hm]
      exact List.mem_cons_self x xs
    · exact List.mem_cons_of_mem x hm

/-- The value `pyMax l` bounds every element of `l`. -/
theorem le_pyMax (l : List ℚ) (c : ℚ) (hc : c ∈ l) : c ≤ pyMax l := by
  cases l with
  | nil => cases hc
  | cons x xs =>
    rcases List.mem_cons.mp hc with rfl | h
    · exact foldl_max_seed_le xs c
    · exact mem_le_foldl_max xs x c h

/-- C3: the `confidence` field of a successful analysis equals the
greatest confidence among the class-filtered detections, and 0.0 when
that list is empty. -/
theorem analyze_confidence_is_max_of_filtered
    (parse : List Char → Except String RawImage)
    (infer : RawImage → Except PyExc (List RawBox))
    (maxSize : ℕ) (imageB64 : List Char) (img : RawImage)
    (results : List RawBox)
    (hdec : decode_base64_image parse maxSize imageB64 = .ok img)
    (hinf : infer img = .ok results) :
    ∃ resp, analyze_face true parse infer maxSize imageB64 = .ok resp
    ∧ ((extractDetections results).2 = [] → resp.confidence = 0)
    ∧ ((extractDetections results).2 ≠ [] →
        resp.confidence ∈ (extractDetections results).2
        ∧ ∀ c ∈ (extractDetections results).2, c ≤ resp.confidence) := by
  refine ⟨{ success := true,
            face_count := (extractDetections results).1.length,
            confidence := if (extractDetections results).2.isEmpty then 0
              else pyMax (extractDetections results).2,
            looking_away := if (extractDetections results).1.length = 1 then
              estimate_looking_away (extractDetections results).1 (img.width : ℚ)
              else false,
            bounding_boxes := some (extractDetections results).1,
            error := none }, ?_, ?_, ?_⟩
  · simp only [analyze_face, hdec, hinf]
  · intro hnil
    simp [hnil]
  · intro hne
    have he : (extractDetections results).2.isEmpty = false :=
      List.isEmpty_eq_false.mpr hne
    refine ⟨?_, fun c hc => ?_⟩
    · simpa [he] using pyMax_mem _ hne
    · simpa [he] using le_pyMax _ c hc

/-- Closed witness for C3 at a concrete input: two person detections
with confidences 3/5 and 9/10. -/
theorem analyze_confidence_is_max_of_filtered_witness :
    ∃ resp, analyze_face true (fun _ => .ok ⟨100, 80, "RGB"⟩)
        (fun _ => .ok [⟨0, 0, 0, 10, 10, 3/5⟩, ⟨0, 50, 0, 60, 10, 9/10⟩])
        1280 ['A'] = .ok resp
    ∧ ((extractDetections [⟨0, 0, 0, 10, 10, 3/5⟩, ⟨0, 50, 0, 60, 10, 9/10⟩]).2 = []
        → resp.confidence = 0)
    ∧ ((extractDetections [⟨0, 0, 0, 10, 10, 3/5⟩, ⟨0, 50, 0, 60, 10, 9/10⟩]).2 ≠ []
        → resp.confidence ∈ (extractDetections [⟨0, 0, 0, 10, 10, 3/5⟩, ⟨0, 50, 0, 60, 10, 9/10⟩]).2
        ∧ ∀ c ∈ (extractDetections [⟨0, 0, 0, 10, 10, 3/5⟩, ⟨0, 50, 0, 60, 10, 9/10⟩]).2,
            c ≤ resp.confidence) :=
  analyze_confidence_is_max_of_filtered (fun _ => .ok ⟨100, 80, "RGB"⟩)
    (fun _ => .ok [⟨0, 0, 0, 10, 10, 3/5⟩, ⟨0, 50, 0, 60, 10, 9/10⟩])
    1280 ['A'] ⟨100, 80, "RGB"⟩ _ rfl rfl

/-- C5: when the decode pipeline fails on the (stripped) image field,
`/analyze` raises HTTP 400 and the detail string starts with
"Invalid image data". -/
theorem analyze_decode_failure_returns_400
    (parse : List Char → Except String RawImage)
    (infer : RawImage → Except PyExc (List RawBox))
    (maxSize : ℕ) (imageB64 : List Char) (e : String)
    (hfail : parse (stripDataUrl imageB64) = .error e) :
    analyze_face true parse infer maxSize imageB64 =
      .httpError 400 ("Invalid image data: " ++ e)
    ∧ ∃ rest, "Invalid image data: " ++ e = "Invalid image data" ++ rest := by
  constructor
  · simp [analyze_face, decode_base64_image, hfail]
  · refine ⟨": " ++ e, ?_⟩
    rw [← String.append_assoc]
    congr 1

/-- Closed witness for C5 at a concrete input: a decode pipeline that
rejects its input the way `PIL.Image.open` does. -/
theorem analyze_decode_failure_returns_400_witness :
    analyze_face true (fun _ => .error "cannot identify image file")
      (fun _ => .ok []) 1280 ['?'] =
      .httpError 400 ("Invalid image data: " ++ "cannot identify image file")
    ∧ ∃ rest, "Invalid image data: " ++ "cannot identify image file" =
        "Invalid image data" ++ rest :=
  analyze_decode_failure_returns_400 (fun _ => .error "cannot identify image file")
    (fun _ => .ok []) 1280 ['?'] "cannot identify image file" rfl

/-- C6 counterexample: the handler's `except ValueError` clause catches
ValueErrors raised anywhere in the `try` block, so a ValueError raised
by the inference step — not an image-decode failure — is answered with
HTTP 400 carrying its message, not HTTP 500. -/
theorem analyze_inference_valueerror_maps_to_400 :
    analyze_face true (fun _ => .ok ⟨100, 80, "RGB"⟩)
      (fun _ => .error (.valueError "operands could not be broadcast"))
      1280 ['A'] = .httpError 400 "operands could not be broadcast"
    ∧ analyze_face true (fun _ => .ok ⟨100, 80, "RGB"⟩)
      (fun _ => .error (.valueError "operands could not be broadcast"))
      1280 ['A'] ≠ .httpError 500 "operands could not be broadcast" := by
  constructor
  · rfl
  · intro h
    rw [show analyze_face true (fun _ => .ok ⟨100, 80, "RGB"⟩)
      (fun _ => .error (.valueError "operands could not be broadcast"))
      1280 ['A'] = .httpError 400 "operands could not be broadcast" from rfl] at h
    injection h with h1 h2
    exact absurd h1 (by decide)

/-- C6 amended: an exception during inference that is not a ValueError
is answered with HTTP 500 carrying the exception's message (ValueErrors
from any point of the handler map to 400 instead). -/
theorem analyze_non_valueerror_returns_500
    (parse : List Char → Except String RawImage)
    (infer : RawImage → Except PyExc (List RawBox))
    (maxSize : ℕ) (imageB64 : List Char) (img : RawImage) (m : String)
    (hdec : decode_base64_image parse maxSize imageB64 = .ok img)
    (hinf : infer img = .error (.other m)) :
    analyze_face true parse infer maxSize imageB64 = .httpError 500 m := by
  simp [analyze_face, hdec, hinf]

/-- Closed witness for the amended C6 at a concrete input: inference
fails with a non-ValueError exception. -/
theorem analyze_non_valueerror_returns_500_witness :
    analyze_face true (fun _ => .ok ⟨100, 80, "RGB"⟩)
      (fun _ => .error (.other "CUDA out of memory")) 1280 ['A'] =
      .httpError 500 "CUDA out of memory" :=
  analyze_non_valueerror_returns_500 (fun _ => .ok ⟨100, 80, "RGB"⟩)
    (fun _ => .error (.other "CUDA out of memory")) 1280 ['A']
    ⟨100, 80, "RGB"⟩ "CUDA out of memory" rfl rfl

/-- C1: on a successful analysis with exactly one class-filtered
detection, `looking_away` is true exactly when the deviation of the
box's horizontal center from the image's horizontal center, relative to
half the image width, strictly exceeds 0.4; at a deviation of exactly
0.4 or below it is false. -/
theorem analyze_one_detection_looking_away_iff
    (parse : List Char → Except String RawImage)
    (infer : RawImage → Except PyExc (List RawBox))
    (maxSize : ℕ) (imageB64 : List Char) (img : RawImage)
    (results : List RawBox) (b : Box)
    (hdec : decode_base64_image parse maxSize imageB64 = .ok img)
    (hinf : infer img = .ok results)
    (hone : (extractDetections results).1 = [b])
    (_hw : 0 < img.width) :
    ∃ resp, analyze_face true parse infer maxSize imageB64 = .ok resp
    ∧ (resp.looking_away = true ↔
        (0.4 : ℚ) <
          |(b.x1 + b.x2) / 2 - (img.width : ℚ) / 2| / ((img.width : ℚ) / 2))
    ∧ (|(b.x1 + b.x2) / 2 - (img.width : ℚ) / 2| / ((img.width : ℚ) / 2)
        ≤ (0.4 : ℚ) → resp.looking_away = false) := by
  refine ⟨{ success := true,
            face_count := (extractDetections results).1.length,
            confidence := if (extractDetections results).2.isEmpty then 0
              else pyMax (extractDetections results).2,
            looking_away := if (extractDetections results).1.length = 1 then
              estimate_looking_away (extractDetections results).1 (img.width : ℚ)
              else false,
            bounding_boxes := some (extractDetections results).1,
            error := none }, ?_, ?_, ?_⟩
  · simp only [analyze_face, hdec, hinf]
  · simp [hone, estimate_looking_away]
  · intro hle
    simp [hone, estimate_looking_away, not_lt.mpr hle]

/-- Closed witness for C1 at a concrete input: a 100-pixel-wide image
with one detection centered at x = 95 (deviation 45/50 = 0.9 > 0.4). -/
theorem analyze_one_detection_looking_away_iff_witness :
    ∃ resp, analyze_face true (fun _ => .ok ⟨100, 80, "RGB"⟩)
        (fun _ => .ok [⟨0, 90, 10, 100, 20, 1/2⟩]) 1280 ['A'] = .ok resp
    ∧ (resp.looking_away = true ↔
        (0.4 : ℚ) <
          |((90 : ℚ) + 100) / 2 - ((100 : ℕ) : ℚ) / 2| / (((100 : ℕ) : ℚ) / 2))
    ∧ (|((90 : ℚ) + 100) / 2 - ((100 : ℕ) : ℚ) / 2| / (((100 : ℕ) : ℚ) / 2)
        ≤ (0.4 : ℚ) →
        resp.looking_away = false) :=
  analyze_one_detection_looking_away_iff (fun _ => .ok ⟨100, 80, "RGB"⟩)
    (fun _ => .ok [⟨0, 90, 10, 100, 20, 1/2⟩]) 1280 ['A'] ⟨100, 80, "RGB"⟩
    [⟨0, 90, 10, 100, 20, 1/2⟩] ⟨90, 10, 100, 20⟩ rfl rfl rfl (by decide)

/-- Function `splitComma` never returns the empty list (Python `split`
always yields at least one piece). -/
theorem splitComma_ne_nil (s : List Char) : splitComma s ≠ [] := by
  cases s with
  | nil => simp [splitComma]
  | cons c rest =>
    rcases h : splitComma rest with _ | ⟨piece, pieces⟩
    · simp [splitComma, h]
    · simp only [splitComma, h]
      split <;> simp

/-- On a comma-free list, `splitComma` yields the single piece. -/
theorem splitComma_of_not_mem (s : List Char) (h : ',' ∉ s) :
    splitComma s = [s] := by
  induction s with
  | nil => rfl
  | cons c rest ih =>
    have hc : c ≠ ',' := fun hh => h (hh ▸ List.mem_cons_self c rest)
    have hr : ',' ∉ rest := fun hh => h (List.mem_cons_of_mem c hh)
    simp [splitComma, ih hr, hc]

/-- Splitting a list with a single comma after a comma-free head yields
the head followed by the split of the tail. -/
theorem splitComma_append (p b : List Char) (hp : ',' ∉ p) :
    splitComma (p ++ ',' :: b) = p :: splitComma b := by
  induction p with
  | nil =>
    rcases hsb : splitComma b with _ | ⟨piece, pieces⟩
    · exact absurd hsb (splitComma_ne_nil b)
    · simp [splitComma, hsb]
  | cons c p0 ih =>
    have hc : c ≠ ',' := fun hh => hp (hh ▸ List.mem_cons_self c p0)
    have hp0 : ',' ∉ p0 := fun hh => hp (List.mem_cons_of_mem c hh)
    simp [splitComma, ih hp0, hc]

/-- C7: a base64 string decodes to the same image whether or not a
comma-terminated data-URL head is prepended, for any head and payload
that are themselves comma-free (as data-URL heads and base64 payloads
are). -/
theorem decode_ignores_data_url_head
    (parse : List Char → Except String RawImage) (maxSize : ℕ)
    (p b : List Char) (hp : ',' ∉ p) (hb : ',' ∉ b) :
    decode_base64_image parse maxSize (p ++ ',' :: b) =
      decode_base64_image parse maxSize b := by
  have h1 : stripDataUrl (p ++ ',' :: b) = b := by
    have hmem : ',' ∈ p ++ ',' :: b :=
      List.mem_append_right p (List.mem_cons_self ',' b)
    simp [stripDataUrl, hmem, splitComma_append p b hp,
      splitComma_of_not_mem b hb]
  have h2 : stripDataUrl b = b := by
    simp [stripDataUrl, hb]
  simp only [decode_base64_image, h1, h2]

/-- Closed witness for C7 at a concrete input: a data-URL head in front
of a short base64 payload. -/
theorem decode_ignores_data_url_head_witness :
    decode_base64_image (fun s => .ok ⟨s.length, 1, "RGB"⟩) 1280
        (['d', 'a', 't', 'a', ':', ';', 'b', '6', '4'] ++ ',' :: ['Q', 'U', 'J', 'D']) =
      decode_base64_image (fun s => .ok ⟨s.length, 1, "RGB"⟩) 1280
        ['Q', 'U', 'J', 'D'] :=
  decode_ignores_data_url_head (fun s => .ok ⟨s.length, 1, "RGB"⟩) 1280
    ['d', 'a', 't', 'a', ':', ';', 'b', '6', '4'] ['Q', 'U', 'J', 'D']
    (by decide) (by decide)

/-- Step `image.convert("RGB")` does not change the width. -/
theorem toRGB_width (img : RawImage) : (toRGB img).width = img.width := by
  unfold toRGB
  split <;> rfl

/-- Step `image.convert("RGB")` does not change the height. -/
theorem toRGB_height (img : RawImage) : (toRGB img).height = img.height := by
  unfold toRGB
  split <;> rfl

/-- Truncating a nonnegative rational (`int(...)` in Python) never
increases it. -/
theorem toNat_floor_le (x : ℚ) (hx : 0 ≤ x) : ((⌊x⌋.toNat : ℚ)) ≤ x := by
  have h0 : (0:ℤ) ≤ ⌊x⌋ := Int.floor_nonneg.mpr hx
  rw [show ((⌊x⌋.toNat : ℚ)) = ((⌊x⌋ : ℚ)) from by
    exact_mod_cast Int.toNat_of_nonneg h0]
  exact Int.floor_le x

/-- Truncating a nonnegative rational loses less than one. -/
theorem lt_toNat_floor_add_one (x : ℚ) (hx : 0 ≤ x) :
    x < ((⌊x⌋.toNat : ℚ)) + 1 := by
  have h0 : (0:ℤ) ≤ ⌊x⌋ := Int.floor_nonneg.mpr hx
  rw [show ((⌊x⌋.toNat : ℚ)) = ((⌊x⌋ : ℚ)) from by
    exact_mod_cast Int.toNat_of_nonneg h0]
  exact Int.lt_floor_add_one x

/-- A rational below a natural bound truncates below that bound. -/
theorem toNat_floor_le_nat (x : ℚ) (M : ℕ) (hle : x ≤ (M:ℚ)) :
    (⌊x⌋).toNat ≤ M := by
  have h : ⌊x⌋ ≤ (M:ℤ) := by
    have := Int.floor_le_floor hle
    simpa using this
  exact Int.toNat_le.mpr h

/-- The resize step: the returned dimensions never exceed `maxSize` on
the longer side, an image already within `maxSize` is kept unchanged,
and both dimensions are cut by one common scale factor, so the output
aspect ratio matches the input's within the one-pixel truncation of
`int(...)` (stated by cross-multiplication). -/
theorem resizeIfLarge_spec (maxSize : ℕ) (img : RawImage) :
    max (resizeIfLarge maxSize img).width (resizeIfLarge maxSize img).height ≤ maxSize
    ∧ (max img.width img.height ≤ maxSize → resizeIfLarge maxSize img = img)
    ∧ (resizeIfLarge maxSize img).width * img.height
        ≤ img.width * ((resizeIfLarge maxSize img).height + 1)
    ∧ (resizeIfLarge maxSize img).height * img.width
        ≤ img.height * ((resizeIfLarge maxSize img).width + 1) := by
  by_cases hbig : max img.width img.height > maxSize
  case neg =>
    have heq : resizeIfLarge maxSize img = img := by
      unfold resizeIfLarge
      rw [if_neg hbig]
    rw [heq]
    refine ⟨Nat.le_of_not_lt hbig, fun _ => rfl, ?_, ?_⟩
    · exact Nat.mul_le_mul_left img.width (Nat.le_succ img.height)
    · exact Nat.mul_le_mul_left img.height (Nat.le_succ img.width)
  case pos =>
    have hw_le : img.width ≤ max img.width img.height := le_max_left _ _
    have hh_le : img.height ≤ max img.width img.height := le_max_right _ _
    have hm0 : 0 < max img.width img.height :=
      Nat.lt_of_le_of_lt (Nat.zero_le _) hbig
    have hmQ : (0:ℚ) < ((max img.width img.height : ℕ) : ℚ) := by
      exact_mod_cast hm0
    have heq : resizeIfLarge maxSize img =
        { img with
          width := (⌊(img.width : ℚ) *
            ((maxSize : ℚ) / ((max img.width img.height : ℕ) : ℚ))⌋).toNat,
          height := (⌊(img.height : ℚ) *
            ((maxSize : ℚ) / ((max img.width img.height : ℕ) : ℚ))⌋).toNat } := by
      unfold resizeIfLarge
      rw [if_pos hbig]
    rw [heq]
    have hq0 : 0 ≤ (maxSize : ℚ) / ((max img.width img.height : ℕ) : ℚ) :=
      div_nonneg (Nat.cast_nonneg _) (le_of_lt hmQ)
    have hwcast : (img.width : ℚ) ≤ ((max img.width img.height : ℕ) : ℚ) := by
      exact_mod_cast hw_le
    have hhcast : (img.height : ℚ) ≤ ((max img.width img.height : ℕ) : ℚ) := by
      exact_mod_cast hh_le
    have hM0 : (0:ℚ) ≤ (maxSize : ℚ) := Nat.cast_nonneg _
    have hwq_le : (img.width : ℚ) *
        ((maxSize : ℚ) / ((max img.width img.height : ℕ) : ℚ)) ≤ (maxSize : ℚ) := by
      rw [← mul_div_assoc, div_le_iff₀ hmQ]
      nlinarith
    have hhq_le : (img.height : ℚ) *
        ((maxSize : ℚ) / ((max img.width img.height : ℕ) : ℚ)) ≤ (maxSize : ℚ) := by
      rw [← mul_div_assoc, div_le_iff₀ hmQ]
      nlinarith
    have hw0 : (0:ℚ) ≤ (img.width : ℚ) := Nat.cast_nonneg _
    have hh0 : (0:ℚ) ≤ (img.height : ℚ) := Nat.cast_nonneg _
    have hwprod : 0 ≤ (img.width : ℚ) *
        ((maxSize : ℚ) / ((max img.width img.height : ℕ) : ℚ)) :=
      mul_nonneg hw0 hq0
    have hhprod : 0 ≤ (img.height : ℚ) *
        ((maxSize : ℚ) / ((max img.width img.height : ℕ) : ℚ)) :=
      mul_nonneg hh0 hq0
    refine ⟨max_le (toNat_floor_le_nat _ _ hwq_le) (toNat_floor_le_nat _ _ hhq_le),
      fun hle => absurd hbig (not_lt.mpr hle), ?_, ?_⟩
    · have h1 := toNat_floor_le _ hwprod
      have h2 := lt_toNat_floor_add_one _ hhprod
      have hcast : ((⌊(img.width : ℚ) *
            ((maxSize : ℚ) / ((max img.width img.height : ℕ) : ℚ))⌋).toNat : ℚ)
            * (img.height : ℚ)
          ≤ (img.width : ℚ) * (((⌊(img.height : ℚ) *
            ((maxSize : ℚ) / ((max img.width img.height : ℕ) : ℚ))⌋).toNat : ℚ) + 1) := by
        nlinarith [mul_nonneg (sub_nonneg.mpr h1) hh0,
          mul_nonneg (sub_nonneg.mpr h2.le) hw0]
      exact_mod_cast hcast
    · have h1 := toNat_floor_le _ hhprod
      have h2 := lt_toNat_floor_add_one _ hwprod
      have hcast : ((⌊(img.height : ℚ) *
            ((maxSize : ℚ) / ((max img.width img.height : ℕ) : ℚ))⌋).toNat : ℚ)
            * (img.width : ℚ)
          ≤ (img.height : ℚ) * (((⌊(img.width : ℚ) *
            ((maxSize : ℚ) / ((max img.width img.height : ℕ) : ℚ))⌋).toNat : ℚ) + 1) := by
        nlinarith [mul_nonneg (sub_nonneg.mpr h1) hw0,
          mul_nonneg (sub_nonneg.mpr h2.le) hh0]
      exact_mod_cast hcast

/-- C8: the image returned by the decoder has its longer side within
the configured maximum; an image already within the maximum keeps its
original size; and the downscale applies one common ratio to both
sides, preserving the aspect ratio up to the one-pixel `int(...)`
truncation (stated by cross-multiplication). -/
theorem decode_output_size_bounded
    (parse : List Char → Except String RawImage)
    (maxSize : ℕ) (imageB64 : List Char) (img out : RawImage)
    (hparse : parse (stripDataUrl imageB64) = .ok img)
    (hdec : decode_base64_image parse maxSize imageB64 = .ok out) :
    max out.width out.height ≤ maxSize
    ∧ (max img.width img.height ≤ maxSize →
        out.width = img.width ∧ out.height = img.height)
    ∧ out.width * img.height ≤ img.width * (out.height + 1)
    ∧ out.height * img.width ≤ img.height * (out.width + 1) := by
  have hout : resizeIfLarge maxSize (toRGB img) = out := by
    simp only [decode_base64_image, hparse, Except.ok.injEq] at hdec
    exact hdec
  subst hout
  obtain ⟨h1, h2, h3, h4⟩ := resizeIfLarge_spec maxSize (toRGB img)
  rw [toRGB_width, toRGB_height] at h2 h3 h4
  refine ⟨h1, fun hle => ?_, h3, h4⟩
  rw [h2 hle, toRGB_width, toRGB_height]
  exact ⟨rfl, rfl⟩

/-- Closed witness for C8 at a concrete input: a 100 by 80 image under
the default maximum of 1280. -/
theorem decode_output_size_bounded_witness :
    max (100 : ℕ) 80 ≤ 1280
    ∧ (max (100 : ℕ) 80 ≤ 1280 → (100 : ℕ) = 100 ∧ (80 : ℕ) = 80)
    ∧ (100 : ℕ) * 80 ≤ 100 * (80 + 1)
    ∧ (80 : ℕ) * 100 ≤ 80 * (100 + 1) :=
  decode_output_size_bounded (fun _ => .ok ⟨100, 80, "RGB"⟩) 1280 ['A']
    ⟨100, 80, "RGB"⟩ ⟨100, 80, "RGB"⟩ rfl rfl
